import Mathlib

/-!
Verification of the update staging and atomic-replacement engine of
`electron-asar-updater` against its specification.

The definitions below are a shallow embedding of the TypeScript source.
Strings are handled as `List Char` (with `String` wrappers at the
boundary); JavaScript numbers that can be `NaN` or `undefined` are
embedded as the inductive `JsVal`; the filesystem staging directory is
the record `FsState`; external primitives (the HTTP stream, `node:crypto`
digests, `zlib` gunzip) are parameters of a `DlEnv` environment record.
Where the repository contains two variants of the updater class, the
variant with checksum support (the one the specification describes) is
the one embedded.
-/

/-- A JavaScript numeric value as it flows through `parserVersion` /
`compareVersions`: a finite number, `NaN` (from `parseInt` on a
non-numeric segment), or `undefined` (from destructuring a missing
array element). -/
inductive JsVal where
  | undef : JsVal
  | nan : JsVal
  | num : Int → JsVal
deriving DecidableEq, Repr

/-- JavaScript strict inequality `!==` restricted to the values above:
`undefined !== undefined` is false, `NaN !== NaN` is true, numbers
compare by value, and mixed kinds are unequal. -/
def jsStrictNe : JsVal → JsVal → Bool
  | JsVal.undef, JsVal.undef => false
  | JsVal.num a, JsVal.num b => a ≠ b
  | _, _ => true

/-- JavaScript `>` on these values: any comparison involving `NaN` (or
`undefined`, which converts to `NaN`) is false; numbers compare by value. -/
def jsGt : JsVal → JsVal → Bool
  | JsVal.num a, JsVal.num b => a > b
  | _, _ => false

/-- Decimal digit characters, as tested by `parseInt`'s digit scan. -/
def isDigitCh (c : Char) : Bool := 48 ≤ c.toNat && c.toNat ≤ 57

/-- JavaScript whitespace skipped by `parseInt`. -/
def isJsSpace (c : Char) : Bool := c = ' ' || c = '\t' || c = '\n' || c = '\r'

/-- Numeric value of a big-endian list of decimal digit characters
(the accumulation `parseInt` performs on the digits it scanned). -/
def digitsVal (l : List Char) : Nat :=
  l.foldl (fun a c => a * 10 + (c.toNat - 48)) 0

/-- Digit scan of `parseInt`: the longest prefix of decimal digits;
`NaN` if that prefix is empty, otherwise its (signed) numeric value. -/
def jsParseIntDigits (neg : Bool) (l2 : List Char) : JsVal :=
  if l2.takeWhile isDigitCh = [] then JsVal.nan
  else if neg then JsVal.num (-(digitsVal (l2.takeWhile isDigitCh) : Int))
  else JsVal.num (digitsVal (l2.takeWhile isDigitCh) : Int)

/-- Sign handling of `parseInt`: one optional leading `-` or `+`. -/
def jsParseIntCore : List Char → JsVal
  | [] => jsParseIntDigits false []
  | c :: rest =>
    if c = '-' then jsParseIntDigits true rest
    else if c = '+' then jsParseIntDigits false rest
    else jsParseIntDigits false (c :: rest)

/-- JavaScript `parseInt(s, 10)`: skip leading whitespace, consume an
optional sign, then the longest prefix of decimal digits; `NaN` if that
prefix is empty, otherwise the signed value of the digits (any trailing
garbage is ignored, which is the silent coercion of e.g. `"5x"` to `5`). -/
def jsParseIntL (l : List Char) : JsVal := jsParseIntCore (l.dropWhile isJsSpace)

/-- JavaScript `String.prototype.split` with a single-character
separator: always returns at least one (possibly empty) piece. -/
def splitOnChar (c : Char) : List Char → List (List Char)
  | [] => [[]]
  | x :: xs =>
    if x = c then [] :: splitOnChar c xs
    else
      match splitOnChar c xs with
      | [] => [[x]]
      | h :: t => (x :: h) :: t

/-- JavaScript `String.prototype.includes` with a single-character
argument. -/
def containsChar (l : List Char) (c : Char) : Bool := l.any fun x => x = c

/-- `parserVersion` from the source: an optional `-<build>` suffix is
split off first (`build` defaults to `0` when absent), then the
remainder is split on `.` and each segment run through `parseInt`;
`patch` defaults to `0` only when the third segment is missing.  The
result is the 4-element array `[major, minor, patch, build]`. -/
def parserVersionBuild (ver : List Char) : List Char × JsVal :=
  if containsChar ver '-' then
    ((splitOnChar '-' ver).headD [],
     jsParseIntL (((splitOnChar '-' ver).drop 1).headD []))
  else (ver, JsVal.num 0)

/-- `ver.split('.').map(item => parseInt(item, 10))`. -/
def parserVersionSegs (core : List Char) : List JsVal :=
  (splitOnChar '.' core).map jsParseIntL

/-- The destructuring `const [major, minor, patch = 0] = ...` plus the
`build` component: the 4-element array `[major, minor, patch, build]`. -/
def parserVersionL (ver : List Char) : List JsVal :=
  [(parserVersionSegs (parserVersionBuild ver).1).headD JsVal.undef,
   ((parserVersionSegs (parserVersionBuild ver).1).drop 1).headD JsVal.undef,
   ((parserVersionSegs (parserVersionBuild ver).1).drop 2).headD (JsVal.num 0),
   (parserVersionBuild ver).2]

/-- The `for (let i = 0; i < 4; i++)` loop of `compareVersions`: at the
first index where the components differ (JS `!==`), return whether the
candidate's component is `>`; if all four agree, return `false`. -/
def cmpLoop : List JsVal → List JsVal → Bool
  | u :: us, a :: bs => if jsStrictNe u a then jsGt u a else cmpLoop us bs
  | _, _ => false

/-- `compareVersions(updateVersionStr, currentVersionStr)` from the
source: parse both strings and run the component loop. -/
def compareVersionsL (updateVersionStr currentVersionStr : List Char) : Bool :=
  cmpLoop (parserVersionL updateVersionStr) (parserVersionL currentVersionStr)

/-- `parserVersion` at the `String` boundary. -/
def parserVersion (ver : String) : List JsVal := parserVersionL ver.data

/-- `compareVersions` at the `String` boundary. -/
def compareVersions (updateVersionStr currentVersionStr : String) : Bool :=
  compareVersionsL updateVersionStr.data currentVersionStr.data

/-- The decimal digit character for a digit value below 10 (used to
build concrete well-formed version strings for the theorems). -/
def digitChar (d : Nat) : Char :=
  if d = 1 then '1' else if d = 2 then '2' else if d = 3 then '3' else if d = 4 then '4'
  else if d = 5 then '5' else if d = 6 then '6' else if d = 7 then '7' else if d = 8 then '8'
  else if d = 9 then '9' else '0'

/-- Fuel-driven decimal rendering of a positive natural number
(most-significant digit first). -/
def natCharsAux : Nat → Nat → List Char
  | 0, _ => []
  | _ + 1, 0 => []
  | fuel + 1, n + 1 => natCharsAux fuel ((n + 1) / 10) ++ [digitChar ((n + 1) % 10)]

/-- Decimal rendering of a natural number, e.g. `natChars 42 = ['4','2']`. -/
def natChars (n : Nat) : List Char :=
  if n = 0 then ['0'] else natCharsAux n n

/-- The `major.minor[.patch]` part of a well-formed version string. -/
def renderCore (ma mi : Nat) (pa : Option Nat) : List Char :=
  match pa with
  | some p => natChars ma ++ '.' :: (natChars mi ++ '.' :: natChars p)
  | none => natChars ma ++ '.' :: natChars mi

/-- A well-formed version string `major.minor[.patch][-build]` of the
format the specification documents, with optional patch and build parts. -/
def renderVersion (ma mi : Nat) (pa bu : Option Nat) : List Char :=
  match bu with
  | some b => renderCore ma mi pa ++ '-' :: natChars b
  | none => renderCore ma mi pa

/-- Written from the specification's words, for comparison with the
source's `compareVersions`: lexicographic strict greater-than over the
4-tuple `(major, minor, patch, build)`, comparing each segment
numerically, major first. -/
def tupleGt : (Nat × Nat × Nat × Nat) → (Nat × Nat × Nat × Nat) → Bool
  | (a1, a2, a3, a4), (b1, b2, b3, b4) =>
    if a1 ≠ b1 then decide (a1 > b1)
    else if a2 ≠ b2 then decide (a2 > b2)
    else if a3 ≠ b3 then decide (a3 > b3)
    else if a4 ≠ b4 then decide (a4 > b4)
    else false

/-- The big-endian numeric value of a list of digit values. -/
def valBE (ds : List Nat) : Nat := ds.foldl (fun a d => a * 10 + d) 0

/-- Byte sequences: file contents and network stream bodies. -/
abbrev Bytes := List Nat

/-- The remote update descriptor (`AsarInfoResponse` in the source):
`version`, `download_url`, optional `description` and optional hex
`checksum`. -/
structure AsarInfoResponse where
  version : String
  download_url : String
  description : Option String
  checksum : Option String
deriving DecidableEq, Repr

/-- The staging directory (the resolved `ResourceLayout`): contents of
the four sibling artifact paths `swap.asar`, `next.asar`,
`version.json` and `app.asar`, with `none` meaning the file does not
exist.  `version.json` holds the pretty-printed serialized descriptor;
the serialization being invertible, the model stores the descriptor
value itself. -/
structure FsState where
  swap : Option Bytes
  next : Option Bytes
  versionFile : Option AsarInfoResponse
  target : Option Bytes
deriving DecidableEq, Repr

/-- `hasUpgraded()`: when both `next.asar` and `version.json` exist,
the parsed descriptor; otherwise nothing (the source returns `false`). -/
def hasUpgraded (st : FsState) : Option AsarInfoResponse :=
  match st.next, st.versionFile with
  | some _, some info => some info
  | _, _ => none

/-- `s.startsWith(p)` on character lists. -/
def startsWithL : List Char → List Char → Bool
  | _, [] => true
  | [], _ :: _ => false
  | x :: xs, c :: cs => x = c && startsWithL xs cs

/-- `s.endsWith(p)` on character lists. -/
def endsWithL (s p : List Char) : Bool := startsWithL s.reverse p.reverse

/-- Index of the last occurrence of a character, if any
(`String.prototype.lastIndexOf` with a found/not-found split). -/
def lastIndexOfAux (c : Char) : List Char → Option Nat
  | [] => none
  | x :: xs =>
    match lastIndexOfAux c xs with
    | some i => some (i + 1)
    | none => if x = c then some 0 else none

/-- `str.slice(0, str.lastIndexOf(c))` with JavaScript semantics: when
the character does not occur, `lastIndexOf` is `-1` and `slice(0, -1)`
drops the final character. -/
def jsSliceToLastIndexOf (s : List Char) (c : Char) : List Char :=
  match lastIndexOfAux c s with
  | some i => s.take i
  | none => s.take (s.length - 1)

/-- Modelled from `node:url` (an external library of the runtime, not
repository code): `new URL(u).origin` restricted to plain
`http(s)://host[/path]` URLs — the scheme and the host up to the first
path slash. -/
def urlOriginL (u : List Char) : List Char :=
  if startsWithL u ("https://".data) then
    ("https://".data) ++ (u.drop 8).takeWhile (fun c => c ≠ '/')
  else if startsWithL u ("http://".data) then
    ("http://".data) ++ (u.drop 7).takeWhile (fun c => c ≠ '/')
  else u

/-- The `download_url` normalization in `check`: absolute URLs pass
through; a leading `/` joins the configured origin (`downloadHost`);
anything else joins the check URL truncated at its last `/`. -/
def resolveDownloadUrlL (checkVersionUrl downloadHost download_url : List Char) : List Char :=
  if !(startsWithL download_url ("http://".data))
      && !(startsWithL download_url ("https://".data)) then
    if !(startsWithL download_url ("/".data)) then
      jsSliceToLastIndexOf checkVersionUrl '/' ++ '/' :: download_url
    else
      downloadHost ++ download_url
  else download_url

/-- The configuration fields of the `AsarUpdater` class that `check`
reads; the artifact path fields are addressed through `FsState`. -/
structure AsarUpdater where
  checkVersionUrl : String
  downloadHost : String
deriving DecidableEq, Repr

/-- The constructor: `downloadHost = new URL(version_url).origin`. -/
def mkAsarUpdater (version_url : String) : AsarUpdater :=
  { checkVersionUrl := version_url
    downloadHost := ⟨urlOriginL version_url.data⟩ }

/-- `resolveDownloadUrlL` at the `String` boundary, with the fields of
an updater instance. -/
def resolveDownloadUrl (u : AsarUpdater) (download_url : String) : String :=
  ⟨resolveDownloadUrlL u.checkVersionUrl.data u.downloadHost.data download_url.data⟩

/-- The anti-loop guard of `check`: when a staged `version.json` exists
and records a truthy (non-empty) checksum equal to the fetched
descriptor's checksum, report no update regardless of the version
comparison. -/
def checkAvailable (st : FsState) (data : AsarInfoResponse) (isUpdater : Bool) : Bool :=
  match st.versionFile with
  | some nextUpdaterInfo =>
    match nextUpdaterInfo.checksum with
    | some c => if c ≠ "" ∧ data.checksum = some c then false else isUpdater
    | none => isUpdater
  | none => isUpdater

/-- `check(curentVersion)`, given the descriptor the metadata endpoint
returned with HTTP 200: the `[isUpdater, info]` pair with the resolved
download URL. -/
def check (u : AsarUpdater) (st : FsState) (data : AsarInfoResponse)
    (curentVersion : String) : Bool × AsarInfoResponse :=
  (checkAvailable st data (compareVersions data.version curentVersion),
   { data with download_url := resolveDownloadUrl u data.download_url })

/-- Digest algorithms `createHash` is invoked with. -/
inductive HashAlg where
  | md5 : HashAlg
  | sha256 : HashAlg
deriving DecidableEq, Repr

/-- The algorithm selection `checksum.length === 32 ? 'md5' : 'sha256'`. -/
def chooseAlg (checksum : String) : HashAlg :=
  if checksum.length = 32 then HashAlg.md5 else HashAlg.sha256

/-- Outcome of `http_get_stream` and the subsequent piping: the request
can fail outright (non-200 or connection error, no stream), the stream
can error after part of the body was already piped into the swap file,
or the whole body arrives. -/
inductive NetResult where
  | noStream : NetResult
  | interrupted : Bytes → NetResult
  | complete : Bytes → NetResult
deriving DecidableEq, Repr

/-- External primitives of the download pipeline: the network outcome,
the `node:crypto` hex digest function, and `zlib` gunzip. -/
structure DlEnv where
  net : NetResult
  hashHex : HashAlg → Bytes → String
  gunzip : Bytes → Bytes

/-- `toLowerCase()` as it acts on the ASCII hex-digest strings involved
here: lower each character (`Char.toLower` maps exactly the ASCII
range, which is all a hex digest contains). -/
def strToLower (s : String) : String := ⟨s.data.map Char.toLower⟩

/-- One stage of the `outputStreams` array built by `download`. -/
inductive Stage where
  | hashStage : HashAlg → Stage
  | gunzipStage : Stage
  | writeStage : Stage
deriving DecidableEq, Repr

/-- The pipeline construction of `download`, in source order: the
hash pass-through is pushed first when the checksum is truthy — the
guard is `if (checksum)`, which an absent field and the empty string
both fail — then the gunzip stage when the URL ends in `.gz`/`.gzip`,
then the swap-file write stream. -/
def buildOutputStreams (checksum : Option String) (isGzip : Bool) : List Stage :=
  (match checksum with
   | some c => if c = "" then [] else [Stage.hashStage (chooseAlg c)]
   | none => []) ++
  (if isGzip then [Stage.gunzipStage] else []) ++ [Stage.writeStage]

/-- What the pipeline produced: the bytes that reached the write stream
and the lowercased hex digest the hash transform accumulated, if any. -/
structure PipeResult where
  written : Bytes
  digest : Option String
deriving DecidableEq, Repr

/-- Stream semantics of `pipe(inStream, ...outputStreams)`: each stage
consumes the bytes its predecessor emitted; the hash stage records the
digest of its own input (`HashTransform` lowercases it at `_flush`) and
passes the bytes through unchanged; the gunzip stage decompresses; the
write stage records what reaches the swap file. -/
def runStages (env : DlEnv) : List Stage → Bytes → PipeResult → PipeResult
  | [], _, ps => ps
  | Stage.hashStage alg :: rest, input, ps =>
      runStages env rest input { ps with digest := some (strToLower (env.hashHex alg input)) }
  | Stage.gunzipStage :: rest, input, ps =>
      runStages env rest (env.gunzip input) ps
  | Stage.writeStage :: rest, input, ps =>
      runStages env rest input { ps with written := input }

/-- `download_url.endsWith('.gz') || download_url.endsWith('.gzip')`. -/
def isGzipUrl (url : String) : Bool :=
  endsWithL url.data (".gz".data) || endsWithL url.data (".gzip".data)

/-- Errors `download` can throw: a transport failure (rejected request
or mid-stream error) or the checksum mismatch. -/
inductive DlError where
  | transport : DlError
  | checksum : DlError
deriving DecidableEq, Repr

/-- Step 1 of `download`: delete any pre-existing `next.asar`,
`swap.asar` and `version.json` (the variant with checksum support
deletes all three). -/
def downloadCleanup (st : FsState) : FsState :=
  { st with next := none, swap := none, versionFile := none }

/-- The full pipeline run of `download` on a complete body. -/
def downloadPipe (env : DlEnv) (asarInfo : AsarInfoResponse) (body : Bytes) : PipeResult :=
  runStages env (buildOutputStreams asarInfo.checksum (isGzipUrl asarInfo.download_url)) body
    { written := [], digest := none }

/-- The comparison `hashTransform.hash !== checksum.toLowerCase()`,
performed only when a hash transform was created, which requires the
checksum to be truthy (present and non-empty): with a falsy checksum no
transform exists and `download` never compares. -/
def checksumMismatch (checksum digest : Option String) : Bool :=
  match checksum, digest with
  | some c, some d => decide (c ≠ "" ∧ d ≠ strToLower c)
  | _, _ => false

/-- `download(asarInfo)`: delete stale artifacts, stream the body into
`swap.asar` through the pipeline, verify the digest when a checksum was
supplied, and only then commit by renaming `swap.asar` to `next.asar`
and writing `version.json`.  The returned pair is the resulting
directory state together with the thrown error, if any (`none` means
the source returned `true`). -/
def download (env : DlEnv) (st0 : FsState) (asarInfo : AsarInfoResponse) :
    FsState × Option DlError :=
  match env.net with
  | NetResult.noStream => (downloadCleanup st0, some DlError.transport)
  | NetResult.interrupted written =>
      ({ downloadCleanup st0 with swap := some written }, some DlError.transport)
  | NetResult.complete body =>
      if checksumMismatch asarInfo.checksum (downloadPipe env asarInfo body).digest then
        ({ downloadCleanup st0 with swap := some (downloadPipe env asarInfo body).written },
         some DlError.checksum)
      else
        ({ downloadCleanup st0 with
            next := some (downloadPipe env asarInfo body).written
            versionFile := some asarInfo },
         none)

/-- Filesystem error of the replacement rename. -/
inductive FsError where
  | enoent : FsError
deriving DecidableEq, Repr

/-- `upgrade()` on a direct-rename (non-win32) platform: best-effort
delete of `app.asar` (`rm` with `force: true` succeeds even when the
file is absent), then rename `next.asar` onto it; the rename fails with
`ENOENT` when no `next.asar` exists, after the target was already
removed.  (The win32 branch instead spawns a detached script and makes
no filesystem change of its own before returning; it is outside this
filesystem model.) -/
def upgrade (st : FsState) : FsState × Option FsError :=
  match st.next with
  | some b => ({ st with target := some b, next := none }, none)
  | none => ({ st with target := none }, some FsError.enoent)

/-- A sample descriptor used by the concrete witnesses. -/
def infoW : AsarInfoResponse :=
  { version := "2.0.0", download_url := "https://h/pkg/app.asar"
    description := none, checksum := some "abc" }

/-- A network environment whose request fails outright. -/
def envNoStreamW : DlEnv :=
  { net := NetResult.noStream, hashHex := fun _ _ => "abc", gunzip := fun b => b }

/-- A directory state holding a previously staged update. -/
def stStagedW : FsState :=
  { swap := none, next := some [1, 2], versionFile := some infoW, target := some [0] }

/-- A directory state with no staged update. -/
def stEmptyW : FsState :=
  { swap := none, next := none, versionFile := none, target := some [0] }

/-- A directory state with no `next.asar` but a live target bundle. -/
def stNoNextW : FsState :=
  { swap := none, next := none, versionFile := none, target := some [7] }

/-- The updater instance of the URL-resolution examples. -/
def updW : AsarUpdater := mkAsarUpdater "https://h/api/check"

/-- A staged descriptor recording checksum "abc". -/
def prevW : AsarInfoResponse :=
  { version := "1.5.0", download_url := "app.asar", description := none, checksum := some "abc" }

/-- A freshly fetched descriptor with the same checksum and a greater
version. -/
def dataW : AsarInfoResponse :=
  { version := "2.0.0", download_url := "app.asar", description := none, checksum := some "abc" }

/-- A directory state whose `version.json` records `prevW`. -/
def stPrevW : FsState :=
  { swap := none, next := some [9], versionFile := some prevW, target := some [0] }

/-- A descriptor with a gzip-suffixed download URL and a checksum. -/
def infoGzW : AsarInfoResponse :=
  { version := "2.0.0", download_url := "https://h/pkg/app.asar.gz"
    description := none, checksum := some "ab" }

/-- An environment delivering a complete three-byte body, whose digest
function always answers `"ab"` and whose gunzip yields `[9]`. -/
def envBodyW : DlEnv :=
  { net := NetResult.complete [1, 2, 3], hashHex := fun _ _ => "ab", gunzip := fun _ => [9] }

/-- `digitChar` of a digit value has the expected code point. -/
theorem digitChar_toNat {d : Nat} (h : d < 10) : (digitChar d).toNat = 48 + d := by
  interval_cases d <;> decide

/-- `digitChar` of a digit value is a decimal digit character. -/
theorem digitChar_isDigit {d : Nat} (h : d < 10) : isDigitCh (digitChar d) = true := by
  interval_cases d <;> decide

/-- A digit character is not a version separator, a sign, or whitespace. -/
theorem digit_not_sep {c : Char} (h : isDigitCh c = true) :
    c ≠ '.' ∧ c ≠ '-' ∧ c ≠ '+' ∧ isJsSpace c = false := by
  refine ⟨?_, ?_, ?_, ?_⟩
  · rintro rfl; exact absurd h (by decide)
  · rintro rfl; exact absurd h (by decide)
  · rintro rfl; exact absurd h (by decide)
  · cases hs : isJsSpace c
    · rfl
    · exfalso
      simp only [isJsSpace, Bool.or_eq_true, decide_eq_true_eq] at hs
      rcases hs with ((rfl | rfl) | rfl) | rfl <;> exact absurd h (by decide)

/-- The fuel-driven renderer agrees with `Nat.digits`. -/
theorem natCharsAux_eq :
    ∀ fuel n, n ≤ fuel → natCharsAux fuel n = ((Nat.digits 10 n).reverse).map digitChar := by
  intro fuel
  induction fuel with
  | zero =>
    intro n hn
    interval_cases n
    simp [natCharsAux]
  | succ f ih =>
    intro n hn
    match n with
    | 0 => simp [natCharsAux]
    | m + 1 =>
      have hdiv : (m + 1) / 10 ≤ f := by
        have := Nat.div_lt_self (Nat.succ_pos m) (by norm_num : 1 < 10)
        omega
      rw [natCharsAux, ih _ hdiv, Nat.digits_def' (by norm_num : 1 < 10) (Nat.succ_pos m)]
      simp

/-- Every character of a rendered natural number is a decimal digit. -/
theorem natChars_digit (n : Nat) : ∀ c ∈ natChars n, isDigitCh c = true := by
  intro c hc
  unfold natChars at hc
  by_cases h0 : n = 0
  · rw [if_pos h0] at hc
    simp only [List.mem_singleton] at hc
    subst hc; decide
  · rw [if_neg h0, natCharsAux_eq n n le_rfl] at hc
    simp only [List.mem_map, List.mem_reverse] at hc
    obtain ⟨d, hd, rfl⟩ := hc
    exact digitChar_isDigit (Nat.digits_lt_base (by norm_num) hd)

/-- Folding the digit accumulation over rendered digits equals folding
over the digit values themselves. -/
theorem foldl_digitChar :
    ∀ (L : List Nat) (acc : Nat), (∀ d ∈ L, d < 10) →
      ((L.map digitChar).foldl (fun a c => a * 10 + (c.toNat - 48)) acc
        = L.foldl (fun a d => a * 10 + d) acc) := by
  intro L
  induction L with
  | nil => intro acc _; rfl
  | cons d ds ih =>
    intro acc h
    simp only [List.map_cons, List.foldl_cons]
    rw [digitChar_toNat (h d (by simp)), Nat.add_sub_cancel_left]
    exact ih _ (fun x hx => h x (by simp [hx]))

/-- The big-endian fold matches `Nat.ofDigits` on the reversed list. -/
theorem foldr_ofDigits : ∀ L : List Nat, L.foldr (fun d a => a * 10 + d) 0 = Nat.ofDigits 10 L := by
  intro L
  induction L with
  | nil => simp [Nat.ofDigits_nil]
  | cons d ds ih => simp only [List.foldr_cons, ih, Nat.ofDigits_cons]; ring

/-- `valBE` of the reversed digit list of `n` recovers `n`. -/
theorem valBE_reverse_digits (n : Nat) : valBE ((Nat.digits 10 n).reverse) = n := by
  unfold valBE
  rw [List.foldl_reverse, foldr_ofDigits, Nat.ofDigits_digits]

/-- The numeric value of the rendered digits of `n` is `n`. -/
theorem digitsVal_natChars (n : Nat) : digitsVal (natChars n) = n := by
  unfold natChars
  by_cases h0 : n = 0
  · rw [if_pos h0, h0]; decide
  · rw [if_neg h0, natCharsAux_eq n n le_rfl]
    unfold digitsVal
    rw [foldl_digitChar _ 0 (fun d hd => Nat.digits_lt_base (by norm_num) (List.mem_reverse.mp hd))]
    exact valBE_reverse_digits n

/-- A rendered natural number is never the empty string. -/
theorem natChars_ne_nil (n : Nat) : natChars n ≠ [] := by
  by_cases h0 : n = 0
  · rw [h0]; decide
  · intro h
    have := digitsVal_natChars n
    rw [h] at this
    exact h0 (this.symm.trans rfl)

/-- `takeWhile` keeps a list all of whose elements satisfy the predicate. -/
theorem takeWhile_all {p : Char → Bool} :
    ∀ {l : List Char}, (∀ x ∈ l, p x = true) → l.takeWhile p = l := by
  intro l
  induction l with
  | nil => intro _; rfl
  | cons x xs ih =>
    intro h
    rw [List.takeWhile_cons, if_pos (h x (by simp))]
    rw [ih fun y hy => h y (by simp [hy])]

/-- `parseInt` on a non-empty all-digit string yields its numeric value. -/
theorem jsParseIntL_digits {l : List Char} (hne : l ≠ [])
    (h : ∀ c ∈ l, isDigitCh c = true) :
    jsParseIntL l = JsVal.num (digitsVal l) := by
  obtain ⟨c, cs, rfl⟩ := List.exists_cons_of_ne_nil hne
  obtain ⟨_, hdash, hplus, hspace⟩ := digit_not_sep (h c (by simp))
  unfold jsParseIntL
  rw [List.dropWhile_cons, if_neg (by simp [hspace])]
  simp only [jsParseIntCore]
  rw [if_neg hdash, if_neg hplus]
  unfold jsParseIntDigits
  rw [takeWhile_all h]
  simp

/-- `splitOnChar` always returns at least one piece. -/
theorem splitOnChar_ne_nil (c : Char) : ∀ l, splitOnChar c l ≠ [] := by
  intro l
  induction l with
  | nil => simp [splitOnChar]
  | cons x xs ih =>
    by_cases hx : x = c
    · simp [splitOnChar, hx]
    · simp only [splitOnChar, if_neg hx]
      cases h : splitOnChar c xs with
      | nil => simp
      | cons a t => simp

/-- A list free of the separator splits into a single piece. -/
theorem splitOnChar_no_sep (c : Char) :
    ∀ l, (∀ x ∈ l, x ≠ c) → splitOnChar c l = [l] := by
  intro l
  induction l with
  | nil => intro _; rfl
  | cons x xs ih =>
    intro h
    have hx : x ≠ c := h x (by simp)
    simp only [splitOnChar, if_neg hx]
    rw [ih fun y hy => h y (by simp [hy])]

/-- Splitting at the first separator occurrence peels off the prefix. -/
theorem splitOnChar_append (c : Char) (A B : List Char) (h : ∀ x ∈ A, x ≠ c) :
    splitOnChar c (A ++ c :: B) = A :: splitOnChar c B := by
  induction A with
  | nil => simp [splitOnChar]
  | cons x xs ih =>
    have hx : x ≠ c := h x (by simp)
    have ih' := ih fun y hy => h y (by simp [hy])
    simp only [List.cons_append, splitOnChar, if_neg hx]
    simp [ih']

/-- `includes` is false on a list free of the character. -/
theorem containsChar_eq_false {l : List Char} {c : Char} (h : ∀ x ∈ l, x ≠ c) :
    containsChar l c = false := by
  induction l with
  | nil => rfl
  | cons x xs ih =>
    simp only [containsChar, List.any_cons, Bool.or_eq_false_iff]
    constructor
    · simpa using h x (by simp)
    · exact ih fun y hy => h y (by simp [hy])

/-- `includes` is true when the character occurs. -/
theorem containsChar_append_sep (A B : List Char) (c : Char) :
    containsChar (A ++ c :: B) c = true := by
  simp only [containsChar, List.any_append, List.any_cons, decide_eq_true_eq]
  simp

/-- `parseInt` recovers a rendered natural number. -/
theorem jsParseIntL_natChars (n : Nat) : jsParseIntL (natChars n) = JsVal.num n := by
  rw [jsParseIntL_digits (natChars_ne_nil n) (natChars_digit n), digitsVal_natChars]

/-- No character of the `major.minor[.patch]` part is a dash. -/
theorem renderCore_no_dash (ma mi : Nat) (pa : Option Nat) :
    ∀ x ∈ renderCore ma mi pa, x ≠ '-' := by
  intro x hx
  cases pa with
  | none =>
    simp only [renderCore] at hx
    rcases List.mem_append.mp hx with h1 | h2
    · exact (digit_not_sep (natChars_digit ma x h1)).2.1
    · rcases List.mem_cons.mp h2 with rfl | h3
      · decide
      · exact (digit_not_sep (natChars_digit mi x h3)).2.1
  | some p =>
    simp only [renderCore] at hx
    rcases List.mem_append.mp hx with h1 | h2
    · exact (digit_not_sep (natChars_digit ma x h1)).2.1
    · rcases List.mem_cons.mp h2 with rfl | h3
      · decide
      · rcases List.mem_append.mp h3 with h4 | h5
        · exact (digit_not_sep (natChars_digit mi x h4)).2.1
        · rcases List.mem_cons.mp h5 with rfl | h6
          · decide
          · exact (digit_not_sep (natChars_digit p x h6)).2.1

/-- Splitting `major.minor` on dots gives the two rendered segments. -/
theorem splitCore_none (ma mi : Nat) :
    splitOnChar '.' (renderCore ma mi none) = [natChars ma, natChars mi] := by
  have hma : ∀ x ∈ natChars ma, x ≠ '.' :=
    fun x hx => (digit_not_sep (natChars_digit ma x hx)).1
  have hmi : ∀ x ∈ natChars mi, x ≠ '.' :=
    fun x hx => (digit_not_sep (natChars_digit mi x hx)).1
  simp only [renderCore]
  rw [splitOnChar_append '.' _ _ hma, splitOnChar_no_sep '.' _ hmi]

/-- Splitting `major.minor.patch` on dots gives the three rendered segments. -/
theorem splitCore_some (ma mi p : Nat) :
    splitOnChar '.' (renderCore ma mi (some p)) = [natChars ma, natChars mi, natChars p] := by
  have hma : ∀ x ∈ natChars ma, x ≠ '.' :=
    fun x hx => (digit_not_sep (natChars_digit ma x hx)).1
  have hmi : ∀ x ∈ natChars mi, x ≠ '.' :=
    fun x hx => (digit_not_sep (natChars_digit mi x hx)).1
  have hp : ∀ x ∈ natChars p, x ≠ '.' :=
    fun x hx => (digit_not_sep (natChars_digit p x hx)).1
  simp only [renderCore]
  rw [splitOnChar_append '.' _ _ hma, splitOnChar_append '.' _ _ hmi,
      splitOnChar_no_sep '.' _ hp]

/-- The dotted `major.minor` core parses to the two numeric segments. -/
theorem segsCore_none (ma mi : Nat) :
    parserVersionSegs (renderCore ma mi none) = [JsVal.num ma, JsVal.num mi] := by
  unfold parserVersionSegs
  rw [splitCore_none]
  simp [jsParseIntL_natChars]

/-- The dotted `major.minor.patch` core parses to the three numeric segments. -/
theorem segsCore_some (ma mi p : Nat) :
    parserVersionSegs (renderCore ma mi (some p)) =
      [JsVal.num ma, JsVal.num mi, JsVal.num p] := by
  unfold parserVersionSegs
  rw [splitCore_some]
  simp [jsParseIntL_natChars]

/-- The build-suffix handling of `parserVersion` on a rendered version
string: the core string and the numeric build (default `0`). -/
theorem parserVersionBuild_render (ma mi : Nat) (pa bu : Option Nat) :
    parserVersionBuild (renderVersion ma mi pa bu) =
      (renderCore ma mi pa, JsVal.num (bu.getD 0)) := by
  cases bu with
  | none =>
    simp only [renderVersion]
    unfold parserVersionBuild
    rw [if_neg (by simp [containsChar_eq_false (renderCore_no_dash ma mi pa)])]
    simp
  | some b =>
    have hnb : ∀ x ∈ natChars b, x ≠ '-' :=
      fun x hx => (digit_not_sep (natChars_digit b x hx)).2.1
    simp only [renderVersion]
    unfold parserVersionBuild
    rw [if_pos (by rw [containsChar_append_sep])]
    rw [splitOnChar_append '-' _ _ (renderCore_no_dash ma mi pa),
        splitOnChar_no_sep '-' _ hnb]
    simp [jsParseIntL_natChars]

/-- The source's `parserVersion` on a well-formed rendered version string
produces exactly the numeric 4-tuple, with `patch` and `build`
defaulting to `0` when their optional parts are omitted. -/
theorem parserVersion_render (ma mi : Nat) (pa bu : Option Nat) :
    parserVersionL (renderVersion ma mi pa bu) =
      [JsVal.num ma, JsVal.num mi, JsVal.num (pa.getD 0), JsVal.num (bu.getD 0)] := by
  unfold parserVersionL
  rw [parserVersionBuild_render]
  cases pa with
  | none => simp [segsCore_none]
  | some p => simp [segsCore_some]

/-- The comparison loop on two numeric 4-tuples is the specification's
lexicographic strict greater-than. -/
theorem cmpLoop_num (a1 a2 a3 a4 b1 b2 b3 b4 : Nat) :
    cmpLoop [JsVal.num a1, JsVal.num a2, JsVal.num a3, JsVal.num a4]
        [JsVal.num b1, JsVal.num b2, JsVal.num b3, JsVal.num b4]
      = tupleGt (a1, a2, a3, a4) (b1, b2, b3, b4) := by
  simp only [cmpLoop, jsStrictNe, jsGt, tupleGt]
  by_cases h1 : a1 = b1 <;> by_cases h2 : a2 = b2 <;>
    by_cases h3 : a3 = b3 <;> by_cases h4 : a4 = b4 <;>
    simp [h1, h2, h3, h4, Nat.cast_inj, Nat.cast_lt]

/-- The source's `compareVersions` on well-formed version strings is
the lexicographic tuple comparison. -/
theorem compareVersions_render (ma mi : Nat) (pa bu : Option Nat)
    (ma2 mi2 : Nat) (pa2 bu2 : Option Nat) :
    compareVersionsL (renderVersion ma mi pa bu) (renderVersion ma2 mi2 pa2 bu2)
      = tupleGt (ma, mi, pa.getD 0, bu.getD 0) (ma2, mi2, pa2.getD 0, bu2.getD 0) := by
  unfold compareVersionsL
  rw [parserVersion_render, parserVersion_render, cmpLoop_num]

/-- Unfolding of the lexicographic comparison into arithmetic. -/
theorem tupleGt_eq_true_iff (a1 a2 a3 a4 b1 b2 b3 b4 : Nat) :
    tupleGt (a1, a2, a3, a4) (b1, b2, b3, b4) = true ↔
      (b1 < a1 ∨ (a1 = b1 ∧ (b2 < a2 ∨ (a2 = b2 ∧ (b3 < a3 ∨ (a3 = b3 ∧ b4 < a4)))))) := by
  simp only [tupleGt]
  split_ifs with h1 h2 h3 h4 <;> simp_all

/-- Lexicographic comparison of distinct tuples is antisymmetric. -/
theorem tupleGt_asymm (a1 a2 a3 a4 b1 b2 b3 b4 : Nat)
    (h : (a1, a2, a3, a4) ≠ ((b1, b2, b3, b4) : Nat × Nat × Nat × Nat)) :
    tupleGt (a1, a2, a3, a4) (b1, b2, b3, b4)
      = !tupleGt (b1, b2, b3, b4) (a1, a2, a3, a4) := by
  have hne : ¬(a1 = b1 ∧ a2 = b2 ∧ a3 = b3 ∧ a4 = b4) := by
    intro hc
    exact h (by simp [Prod.ext_iff, hc.1, hc.2.1, hc.2.2.1, hc.2.2.2])
  have hA := tupleGt_eq_true_iff a1 a2 a3 a4 b1 b2 b3 b4
  have hB := tupleGt_eq_true_iff b1 b2 b3 b4 a1 a2 a3 a4
  cases hx : tupleGt (a1, a2, a3, a4) (b1, b2, b3, b4) <;>
    cases hy : tupleGt (b1, b2, b3, b4) (a1, a2, a3, a4) <;>
    rw [hx] at hA <;> rw [hy] at hB <;> simp_all <;> omega

/-- Lexicographic comparison is transitive. -/
theorem tupleGt_trans (a1 a2 a3 a4 b1 b2 b3 b4 c1 c2 c3 c4 : Nat)
    (hab : tupleGt (a1, a2, a3, a4) (b1, b2, b3, b4) = true)
    (hbc : tupleGt (b1, b2, b3, b4) (c1, c2, c3, c4) = true) :
    tupleGt (a1, a2, a3, a4) (c1, c2, c3, c4) = true := by
  rw [tupleGt_eq_true_iff] at hab hbc ⊢
  omega

/-- `take` of the length of a prefix recovers the prefix. -/
theorem take_length_append {α : Type} (A B : List α) : (A ++ B).take A.length = A := by
  induction A with
  | nil => simp
  | cons x xs ih => simp [ih]

/-- `lastIndexOf` misses a list free of the character. -/
theorem lastIndexOfAux_none (c : Char) :
    ∀ l, (∀ x ∈ l, x ≠ c) → lastIndexOfAux c l = none := by
  intro l
  induction l with
  | nil => intro _; rfl
  | cons x xs ih =>
    intro h
    simp only [lastIndexOfAux, ih fun y hy => h y (by simp [hy])]
    rw [if_neg (h x (by simp))]

/-- `lastIndexOf` finds the final occurrence. -/
theorem lastIndexOfAux_append (c : Char) (A B : List Char) (h : ∀ x ∈ B, x ≠ c) :
    lastIndexOfAux c (A ++ c :: B) = some A.length := by
  induction A with
  | nil =>
    simp only [List.nil_append, lastIndexOfAux, lastIndexOfAux_none c B h]
    simp
  | cons x xs ih =>
    simp only [List.cons_append, lastIndexOfAux, List.append_eq, ih]
    rfl

/-- `slice(0, lastIndexOf('/'))` drops everything from the final slash. -/
theorem slice_last_slash (pre post : List Char) (h : ∀ x ∈ post, x ≠ '/') :
    jsSliceToLastIndexOf (pre ++ '/' :: post) '/' = pre := by
  unfold jsSliceToLastIndexOf
  rw [lastIndexOfAux_append '/' pre post h]
  exact take_length_append pre ('/' :: post)

/-- `compareVersions` on explicitly constructed strings is the
list-level comparison. -/
theorem compareVersions_mk (a b : List Char) : compareVersions ⟨a⟩ ⟨b⟩ = compareVersionsL a b :=
  rfl

/-- C4: `compareVersions(candidate, baseline)` parses each version
string into the 4-tuple `(major, minor, patch, build)` — `patch`
defaulting to `0` when omitted, `build` taken from an optional
`-<int>` suffix and defaulting to `0` — and returns true iff the
candidate tuple is lexicographically strictly greater than the baseline
tuple under numeric segment comparison; in particular
`compare("1.2.3-4", "1.2.3-3") = true` and
`compare("1.2.0", "1.10.0") = false`. -/
theorem c4_compare_versions_lexicographic :
    (∀ (ma mi : Nat) (pa bu : Option Nat),
        parserVersion ⟨renderVersion ma mi pa bu⟩ =
          [JsVal.num ma, JsVal.num mi, JsVal.num (pa.getD 0), JsVal.num (bu.getD 0)]) ∧
    (∀ (ma mi : Nat) (pa bu : Option Nat) (ma2 mi2 : Nat) (pa2 bu2 : Option Nat),
        compareVersions ⟨renderVersion ma mi pa bu⟩ ⟨renderVersion ma2 mi2 pa2 bu2⟩ =
          tupleGt (ma, mi, pa.getD 0, bu.getD 0) (ma2, mi2, pa2.getD 0, bu2.getD 0)) ∧
    compareVersions "1.2.3-4" "1.2.3-3" = true ∧
    compareVersions "1.2.0" "1.10.0" = false := by
  refine ⟨?_, ?_, by decide, by decide⟩
  · intro ma mi pa bu
    exact parserVersion_render ma mi pa bu
  · intro ma mi pa bu ma2 mi2 pa2 bu2
    exact compareVersions_render ma mi pa bu ma2 mi2 pa2 bu2

/-- C5 counterexample: `"1.2"` and `"1.2.0"` are distinct valid version
strings of the documented format that denote the same 4-tuple, and on
them `compare(a,b) = !compare(b,a)` fails, so the claim's "unless
`a == b`" proviso is not enough. -/
theorem c5_claim_counterexample :
    ("1.2" : String) ≠ "1.2.0" ∧
    compareVersions "1.2" "1.2.0" ≠ !compareVersions "1.2.0" "1.2" := by decide

/-- C5 (amended): for well-formed version strings, the comparison
satisfies `compare(a,b) = !compare(b,a)` unless `a` and `b` parse to
the same `(major, minor, patch, build)` 4-tuple, and it is transitive. -/
theorem c5_compare_order (ma mi : Nat) (pa bu : Option Nat)
    (ma2 mi2 : Nat) (pa2 bu2 : Option Nat) (ma3 mi3 : Nat) (pa3 bu3 : Option Nat) :
    ((ma, mi, pa.getD 0, bu.getD 0) ≠
        ((ma2, mi2, pa2.getD 0, bu2.getD 0) : Nat × Nat × Nat × Nat) →
      compareVersions ⟨renderVersion ma mi pa bu⟩ ⟨renderVersion ma2 mi2 pa2 bu2⟩ =
        !compareVersions ⟨renderVersion ma2 mi2 pa2 bu2⟩ ⟨renderVersion ma mi pa bu⟩) ∧
    (compareVersions ⟨renderVersion ma mi pa bu⟩ ⟨renderVersion ma2 mi2 pa2 bu2⟩ = true →
      compareVersions ⟨renderVersion ma2 mi2 pa2 bu2⟩ ⟨renderVersion ma3 mi3 pa3 bu3⟩ = true →
      compareVersions ⟨renderVersion ma mi pa bu⟩ ⟨renderVersion ma3 mi3 pa3 bu3⟩ = true) := by
  constructor
  · intro h
    rw [compareVersions_mk, compareVersions_mk, compareVersions_render, compareVersions_render]
    exact tupleGt_asymm ma mi (pa.getD 0) (bu.getD 0) ma2 mi2 (pa2.getD 0) (bu2.getD 0) h
  · intro h1 h2
    rw [compareVersions_mk, compareVersions_render] at h1 h2 ⊢
    exact tupleGt_trans ma mi (pa.getD 0) (bu.getD 0) ma2 mi2 (pa2.getD 0) (bu2.getD 0)
      ma3 mi3 (pa3.getD 0) (bu3.getD 0) h1 h2

/-- C5 witness: the amended properties applied at concrete tuples —
`1.2.3-4` against `1.2.3-3`, and transitivity through `3.0`, `2.0`,
`1.0`. -/
theorem c5_compare_order_witness :
    (compareVersions ⟨renderVersion 1 2 (some 3) (some 4)⟩ ⟨renderVersion 1 2 (some 3) (some 3)⟩ =
      !compareVersions ⟨renderVersion 1 2 (some 3) (some 3)⟩ ⟨renderVersion 1 2 (some 3) (some 4)⟩) ∧
    compareVersions ⟨renderVersion 3 0 none none⟩ ⟨renderVersion 1 0 none none⟩ = true :=
  ⟨(c5_compare_order 1 2 (some 3) (some 4) 1 2 (some 3) (some 3) 0 0 none none).1 (by decide),
   (c5_compare_order 3 0 none none 2 0 none none 1 0 none none).2 (by decide) (by decide)⟩

/-- C6: evaluation of the version parser at malformed inputs: the code
defines no error path at all — a fully non-numeric segment becomes
`NaN` (which then compares false in both directions, masking the
difference), and a partially numeric segment is silently truncated by
`parseInt`. -/
theorem c6_malformed_segments_coerced :
    parserVersion "1.2.x" = [JsVal.num 1, JsVal.num 2, JsVal.nan, JsVal.num 0] ∧
    parserVersion "1.2.5x" = [JsVal.num 1, JsVal.num 2, JsVal.num 5, JsVal.num 0] ∧
    compareVersions "1.2.9" "1.2.x" = false ∧
    compareVersions "1.2.x" "1.2.9" = false := by decide

/-- C7: `check` resolves the descriptor's `download_url` by case
analysis — URLs beginning `http://` or `https://` pass through
unchanged; URLs with a leading `/` are joined to the configured origin;
every other URL is joined to the check URL truncated after its last
`/` — and for check URL `https://h/api/check`, `/pkg/app.asar` resolves
to `https://h/pkg/app.asar` and `app.asar.gz` to
`https://h/api/app.asar.gz`. -/
theorem c7_resolve_url_cases :
    (∀ ck host u : List Char,
        (startsWithL u ("http://".data) || startsWithL u ("https://".data)) = true →
        resolveDownloadUrlL ck host u = u) ∧
    (∀ ck host u : List Char, startsWithL u ("http://".data) = false →
        startsWithL u ("https://".data) = false → startsWithL u ("/".data) = true →
        resolveDownloadUrlL ck host u = host ++ u) ∧
    (∀ host u pre post : List Char, startsWithL u ("http://".data) = false →
        startsWithL u ("https://".data) = false → startsWithL u ("/".data) = false →
        (∀ x ∈ post, x ≠ '/') →
        resolveDownloadUrlL (pre ++ '/' :: post) host u = pre ++ '/' :: u) ∧
    resolveDownloadUrl updW "/pkg/app.asar" = "https://h/pkg/app.asar" ∧
    resolveDownloadUrl updW "app.asar.gz" = "https://h/api/app.asar.gz" := by
  refine ⟨?_, ?_, ?_, by decide, by decide⟩
  · intro ck host u h
    unfold resolveDownloadUrlL
    have h' : startsWithL u ("http://".data) = true ∨ startsWithL u ("https://".data) = true := by
      simpa using h
    rcases h' with h1 | h1 <;> rw [if_neg (by simp [h1])]
  · intro ck host u h1 h2 h3
    unfold resolveDownloadUrlL
    rw [if_pos (by simp [h1, h2]), if_neg (by simp [h3])]
  · intro host u pre post h1 h2 h3 hpost
    unfold resolveDownloadUrlL
    rw [if_pos (by simp [h1, h2]), if_pos (by simp [h3]), slice_last_slash pre post hpost]

/-- C7 witness: the three resolution branches at concrete inputs. -/
theorem c7_resolve_url_cases_witness :
    resolveDownloadUrlL ("x".data) ("h".data) ("http://a".data) = "http://a".data ∧
    resolveDownloadUrlL ("x".data) ("h".data) ("/a".data) = "h".data ++ "/a".data ∧
    resolveDownloadUrlL ("a".data ++ '/' :: "b".data) ("h".data) ("c".data) =
      "a".data ++ '/' :: "c".data :=
  ⟨c7_resolve_url_cases.1 ("x".data) ("h".data) ("http://a".data) (by decide),
   c7_resolve_url_cases.2.1 ("x".data) ("h".data) ("/a".data)
     (by decide) (by decide) (by decide),
   c7_resolve_url_cases.2.2.1 ("h".data) ("c".data) ("a".data) ("b".data)
     (by decide) (by decide) (by decide) (by decide)⟩

/-- C8: when a staged `version.json` exists whose recorded checksum is
present (truthy, i.e. non-empty, matching the JS guard) and equals the
freshly fetched descriptor's checksum, `check` reports
`available = false`, whatever the version comparison would have said —
in particular even when the fetched version is strictly greater. -/
theorem c8_antiloop_guard (u : AsarUpdater) (st : FsState) (data : AsarInfoResponse)
    (cur : String) (prev : AsarInfoResponse) (c : String)
    (h1 : st.versionFile = some prev) (h2 : prev.checksum = some c)
    (h3 : c ≠ "") (h4 : data.checksum = some c) :
    (check u st data cur).1 = false := by
  simp [check, checkAvailable, h1, h2, h3, h4]

/-- C8 witness: a concrete staged state recording checksum `"abc"`; the
fetched descriptor carries version `2.0.0`, strictly newer than the
current `1.0.0`, yet no update is reported. -/
theorem c8_antiloop_guard_witness :
    compareVersions "2.0.0" "1.0.0" = true ∧ (check updW stPrevW dataW "1.0.0").1 = false :=
  ⟨by decide, c8_antiloop_guard updW stPrevW dataW "1.0.0" prevW "abc" rfl rfl (by decide) rfl⟩

/-- C1 counterexample: the claim's "the staging state observable
through `hasUpgraded` is unchanged" fails when an update was already
staged before the failing download: step 1 of `download` deletes the
staged pair before the network request, so a subsequent transport
failure leaves `hasUpgraded` changed from the staged descriptor to
nothing. -/
theorem c1_claim_counterexample :
    (download envNoStreamW stStagedW infoW).2 = some DlError.transport ∧
    hasUpgraded stStagedW = some infoW ∧
    hasUpgraded (download envNoStreamW stStagedW infoW).1 ≠ hasUpgraded stStagedW := by
  decide

/-- C1 (amended): a `download` run that fails at any step before the
commit rename — the request failing, a transport error mid-stream, or a
checksum mismatch — creates no `next`/`version` pair: afterwards
`hasUpgraded` observes nothing staged, and when nothing was staged
before the call the state observable through `hasUpgraded` is
unchanged; only a run that completes every step commits the pair. -/
theorem c1_download_atomicity (env : DlEnv) (st0 : FsState) (info : AsarInfoResponse) :
    (∀ st1 e, download env st0 info = (st1, some e) →
        st1.next = none ∧ st1.versionFile = none ∧ hasUpgraded st1 = none) ∧
    (∀ st1 e, hasUpgraded st0 = none → download env st0 info = (st1, some e) →
        hasUpgraded st1 = hasUpgraded st0) ∧
    (∀ st1, download env st0 info = (st1, none) → hasUpgraded st1 = some info) := by
  obtain ⟨net, hh, gz⟩ := env
  cases net with
  | noStream =>
    refine ⟨?_, ?_, ?_⟩
    · intro st1 e h
      injection h with ha hb
      subst ha
      exact ⟨rfl, rfl, rfl⟩
    · intro st1 e h0 h
      injection h with ha hb
      subst ha
      rw [h0]
      rfl
    · intro st1 h
      injection h with ha hb
      exact Option.noConfusion hb
  | interrupted w =>
    refine ⟨?_, ?_, ?_⟩
    · intro st1 e h
      injection h with ha hb
      subst ha
      exact ⟨rfl, rfl, rfl⟩
    · intro st1 e h0 h
      injection h with ha hb
      subst ha
      rw [h0]
      rfl
    · intro st1 h
      injection h with ha hb
      exact Option.noConfusion hb
  | complete body =>
    by_cases hm :
      checksumMismatch info.checksum
        (downloadPipe ⟨NetResult.complete body, hh, gz⟩ info body).digest = true
    · refine ⟨?_, ?_, ?_⟩
      · intro st1 e h
        simp only [download] at h
        rw [if_pos hm] at h
        injection h with ha hb
        subst ha
        exact ⟨rfl, rfl, rfl⟩
      · intro st1 e h0 h
        simp only [download] at h
        rw [if_pos hm] at h
        injection h with ha hb
        subst ha
        rw [h0]
        rfl
      · intro st1 h
        simp only [download] at h
        rw [if_pos hm] at h
        injection h with ha hb
        exact Option.noConfusion hb
    · refine ⟨?_, ?_, ?_⟩
      · intro st1 e h
        simp only [download] at h
        rw [if_neg hm] at h
        injection h with ha hb
        exact Option.noConfusion hb
      · intro st1 e h0 h
        simp only [download] at h
        rw [if_neg hm] at h
        injection h with ha hb
        exact Option.noConfusion hb
      · intro st1 h
        simp only [download] at h
        rw [if_neg hm] at h
        injection h with ha hb
        subst ha
        rfl

/-- C1 witness: a failing download from a clean state stages nothing. -/
theorem c1_download_atomicity_witness :
    (download envNoStreamW stEmptyW infoW).1.next = none ∧
    (download envNoStreamW stEmptyW infoW).1.versionFile = none ∧
    hasUpgraded (download envNoStreamW stEmptyW infoW).1 = none :=
  (c1_download_atomicity envNoStreamW stEmptyW infoW).1
    (download envNoStreamW stEmptyW infoW).1 DlError.transport (by decide)

/-- C2: `download` begins by deleting the `next`, `swap` and `version`
artifacts: the cleanup clears all three staging artifacts (and touches
nothing else, in particular not the live target), and this happens
before the network stream is opened — when the stream request itself
fails, the resulting state is exactly the cleaned state. -/
theorem c2_download_cleanup_first (st : FsState) (env : DlEnv) (info : AsarInfoResponse) :
    (downloadCleanup st).swap = none ∧ (downloadCleanup st).next = none ∧
    (downloadCleanup st).versionFile = none ∧ (downloadCleanup st).target = st.target ∧
    (env.net = NetResult.noStream →
      download env st info = (downloadCleanup st, some DlError.transport)) := by
  refine ⟨rfl, rfl, rfl, rfl, ?_⟩
  intro h
  obtain ⟨net, hh, gz⟩ := env
  simp only at h
  subst h
  rfl

/-- C2 witness: the cleanup at a concrete staged state, and the
cleaned-state result of a failing download there. -/
theorem c2_download_cleanup_first_witness :
    (downloadCleanup stStagedW).swap = none ∧ (downloadCleanup stStagedW).next = none ∧
    (downloadCleanup stStagedW).versionFile = none ∧
    (downloadCleanup stStagedW).target = stStagedW.target ∧
    download envNoStreamW stStagedW infoW = (downloadCleanup stStagedW, some DlError.transport) := by
  have h := c2_download_cleanup_first stStagedW envNoStreamW infoW
  exact ⟨h.1, h.2.1, h.2.2.1, h.2.2.2.1, h.2.2.2.2 rfl⟩

/-- C3 counterexample: with no staged `next.asar` but a live target
bundle, `upgrade` is not a no-op — the best-effort delete removes the
target and the rename then fails for lack of a source. -/
theorem c3_claim_counterexample :
    (upgrade stNoNextW).2 = some FsError.enoent ∧
    stNoNextW.target = some [7] ∧
    (upgrade stNoNextW).1.target = none := by
  decide

/-- C3 (amended): for every state with no staged `next.asar`, `upgrade`
on a direct-rename platform deletes the live target (the best-effort
`rm` with `force`) and then fails with the rename's `ENOENT`; the
`swap`, `next` and `version` artifacts are untouched.  It is not a
no-op: callers must consult `hasUpgraded` first. -/
theorem c3_upgrade_without_staged (st : FsState) (h : st.next = none) :
    upgrade st = ({ st with target := none }, some FsError.enoent) := by
  unfold upgrade
  rw [h]

/-- C3 witness: the amended behavior at the concrete no-next state. -/
theorem c3_upgrade_without_staged_witness :
    upgrade stNoNextW = ({ stNoNextW with target := none }, some FsError.enoent) :=
  c3_upgrade_without_staged stNoNextW rfl

/-- C9 counterexample: from a staged state, `upgrade` on a direct-rename
platform succeeds and installs the staged bytes, but `version.json`
remains on disk, contradicting the claim that neither the next file nor
the version metadata file remains. -/
theorem c9_claim_counterexample :
    (upgrade stStagedW).2 = none ∧
    (upgrade stStagedW).1.target = some [1, 2] ∧
    (upgrade stStagedW).1.next = none ∧
    (upgrade stStagedW).1.versionFile = some infoW := by
  decide

/-- C9 (amended): after `upgrade` completes on a direct-rename
(non-win32) platform from a staged state, the target's content equals
the previously staged `next.asar` content and `next.asar` is gone — so
`hasUpgraded` subsequently reports nothing staged — but the
`version.json` metadata file remains on disk. -/
theorem c9_upgrade_direct_rename (st : FsState) (b : Bytes) (h : st.next = some b) :
    upgrade st = ({ st with target := some b, next := none }, none) ∧
    hasUpgraded ({ st with target := some b, next := none } : FsState) = none ∧
    FsState.versionFile { st with target := some b, next := none } = st.versionFile := by
  refine ⟨?_, ?_, rfl⟩
  · unfold upgrade
    rw [h]
  · simp [hasUpgraded]

/-- C9 witness: the amended behavior at the concrete staged state. -/
theorem c9_upgrade_direct_rename_witness :
    upgrade stStagedW = ({ stStagedW with target := some [1, 2], next := none }, none) ∧
    hasUpgraded ({ stStagedW with target := some [1, 2], next := none } : FsState) = none ∧
    FsState.versionFile { stStagedW with target := some [1, 2], next := none } =
      stStagedW.versionFile :=
  c9_upgrade_direct_rename stStagedW [1, 2] rfl

/-- A falsy (empty-string) checksum fails the source's `if (checksum)`
guard exactly like an absent one: no hash stage is built, the pipeline
records no digest, no comparison happens, and a complete download
commits without verification. -/
theorem download_empty_checksum_unverified (env : DlEnv) (st : FsState)
    (info : AsarInfoResponse) (body : Bytes)
    (hc : info.checksum = some "") (hnet : env.net = NetResult.complete body) :
    buildOutputStreams info.checksum (isGzipUrl info.download_url) =
      buildOutputStreams none (isGzipUrl info.download_url) ∧
    (downloadPipe env info body).digest = none ∧
    (download env st info).2 = none := by
  obtain ⟨net, hh, gz⟩ := env
  simp only at hnet
  subst hnet
  have hdig : (downloadPipe ⟨NetResult.complete body, hh, gz⟩ info body).digest = none := by
    unfold downloadPipe
    rw [hc]
    cases hgz : isGzipUrl info.download_url <;> simp [buildOutputStreams, runStages]
  refine ⟨by rw [hc]; rfl, hdig, ?_⟩
  simp only [download]
  rw [if_neg (by simp [checksumMismatch, hdig])]

/-- C10: when a checksum is supplied — truthy in the JS sense, i.e.
present and non-empty, which is what the source's `if (checksum)` guard
requires before creating a hash transform at all — and the URL ends in
`.gz`/`.gzip`, the hash stage is piped before the gunzip stage, so the
digest compared with the checksum is computed over the compressed
as-downloaded bytes while the swap file receives the decompressed
bytes; and the algorithm is MD5 exactly when the checksum string has
length 32 (SHA-256 for every other length).  The final conjuncts
evaluate `download` itself: it succeeds iff the compressed-body digest
matches, staging the decompressed content. -/
theorem c10_hash_before_gunzip (env : DlEnv) (st : FsState) (info : AsarInfoResponse)
    (c : String) (body : Bytes)
    (hc : info.checksum = some c) (hce : c ≠ "")
    (hz : isGzipUrl info.download_url = true)
    (hnet : env.net = NetResult.complete body) :
    buildOutputStreams info.checksum true =
      [Stage.hashStage (chooseAlg c), Stage.gunzipStage, Stage.writeStage] ∧
    (downloadPipe env info body).digest = some (strToLower (env.hashHex (chooseAlg c) body)) ∧
    (downloadPipe env info body).written = env.gunzip body ∧
    (chooseAlg c = HashAlg.md5 ↔ c.length = 32) ∧
    (strToLower (env.hashHex (chooseAlg c) body) = strToLower c →
      download env st info =
        ({ downloadCleanup st with
            next := some (env.gunzip body), versionFile := some info }, none)) ∧
    (strToLower (env.hashHex (chooseAlg c) body) ≠ strToLower c →
      download env st info =
        ({ downloadCleanup st with swap := some (env.gunzip body) },
         some DlError.checksum)) := by
  obtain ⟨net, hh, gz⟩ := env
  simp only at hnet
  subst hnet
  have hpipe : downloadPipe ⟨NetResult.complete body, hh, gz⟩ info body =
      { written := gz body, digest := some (strToLower (hh (chooseAlg c) body)) } := by
    unfold downloadPipe
    rw [hc, hz]
    simp [buildOutputStreams, runStages, hce]
  refine ⟨by rw [hc]; simp [buildOutputStreams, hce], ?_, ?_, ?_, ?_, ?_⟩
  · rw [hpipe]
  · rw [hpipe]
  · unfold chooseAlg
    by_cases hl : c.length = 32
    · simp [hl]
    · simp [hl]
  · intro hd
    simp only [download, hpipe]
    rw [if_neg (by simp [checksumMismatch, hc, hd])]
  · intro hd
    simp only [download, hpipe]
    rw [if_pos (by simp [checksumMismatch, hc, hd, hce])]

/-- C10 witness: the pipeline at a concrete gzip download — the digest
is the (constant) hash of the compressed body, the decompressed bytes
reach the swap file, and the matching checksum lets `download` commit
the decompressed content. -/
theorem c10_hash_before_gunzip_witness :
    (downloadPipe envBodyW infoGzW [1, 2, 3]).digest = some "ab" ∧
    (downloadPipe envBodyW infoGzW [1, 2, 3]).written = [9] ∧
    download envBodyW stEmptyW infoGzW =
      ({ downloadCleanup stEmptyW with next := some [9], versionFile := some infoGzW }, none) := by
  have h := c10_hash_before_gunzip envBodyW stEmptyW infoGzW "ab" [1, 2, 3]
    rfl (by decide) (by decide) rfl
  exact ⟨h.2.1.trans (by decide), h.2.2.1.trans (by decide), h.2.2.2.2.1 (by decide)⟩
